import Mathlib

/-!
Verification of the discovery/signaling core of zoya-whisper-stream.

The definitions below are shallow embeddings of the signaling logic in
`src/components/ParentMonitor.tsx`, `src/components/BabyMonitor.tsx` and
`src/lib/webrtc.ts`.  Timestamps are JS `Date.now()` values modelled as `Int`;
JS `Map`s keyed by strings are modelled as insertion-ordered association
lists; React `useState` state is modelled as explicit record fields, and a
value captured by a JS closure at the render that created it is modelled as
an explicit `captured…` parameter or field (React closures never see later
`setState` updates).
-/

namespace Zoya

/-- A Device Directory entry, embedding the `BabyMonitorDevice` records kept
in `discoveredDevices` by `ParentMonitor.tsx`.  `lastSeen` is the JS
timestamp (0 models a falsy `lastSeen`); `method` is `connectionMethod`. -/
structure DirDevice where
  id : String
  name : String
  timestamp : Int
  lastSeen : Int
  method : String
deriving DecidableEq

/-- The device record actually stored by `handleNetworkAnnouncement`
(ParentMonitor.tsx lines 121-127): the incoming announcement's fields with
`lastSeen` refreshed to the arrival time and `connectionMethod` set to
`broadcast`. -/
def mkUpdated (incoming : DirDevice) (now : Int) : DirDevice :=
  { incoming with lastSeen := now, method := "broadcast" }

/-- The update of `prevDevices` performed by `handleNetworkAnnouncement`
(ParentMonitor.tsx lines 121-136): `findIndex` on `id`, replace the first
matching entry in place, otherwise append at the end. -/
def upsertList (u : DirDevice) : List DirDevice → List DirDevice
  | [] => [u]
  | d :: ds => if d.id = u.id then u :: ds else d :: upsertList u ds

/-- `handleNetworkAnnouncement` of ParentMonitor.tsx applied to the directory:
build the refreshed record for the incoming device and upsert it by id. -/
def handleNetworkAnnouncement (incoming : DirDevice) (now : Int)
    (dir : List DirDevice) : List DirDevice :=
  upsertList (mkUpdated incoming now) dir

/-- A sequence of announcement arrivals folded over the directory;
each element pairs the incoming device with its arrival time. -/
def runUpserts (dir : List DirDevice) (ups : List (DirDevice × Int)) :
    List DirDevice :=
  ups.foldl (fun acc p => handleNetworkAnnouncement p.1 p.2 acc) dir

/-- The expiry pass of the `cleanupInterval` in `scanForDevices`
(ParentMonitor.tsx lines 167-173), generalised over the threshold: the code
keeps a device iff `device.lastSeen` is truthy and
`Date.now() - device.lastSeen < 15000`. -/
def expireDevices (now ttl : Int) (dir : List DirDevice) : List DirDevice :=
  dir.filter (fun d => decide (d.lastSeen ≠ 0 ∧ now - d.lastSeen < ttl))

/-- The expiry tick exactly as coded, with the literal 15000 ms threshold. -/
def cleanupTick (now : Int) (dir : List DirDevice) : List DirDevice :=
  expireDevices now 15000 dir

/-- Devices in `dir` whose id is `x`. -/
def entriesFor (x : String) (dir : List DirDevice) : List DirDevice :=
  dir.filter (fun d => decide (d.id = x))

lemma mkUpdated_id (incoming : DirDevice) (now : Int) :
    (mkUpdated incoming now).id = incoming.id := rfl

lemma entriesFor_cons_self (x : String) (d : DirDevice) (ds : List DirDevice)
    (hd : d.id = x) : entriesFor x (d :: ds) = d :: entriesFor x ds := by
  simp [entriesFor, List.filter_cons, hd]

lemma entriesFor_cons_other (x : String) (d : DirDevice) (ds : List DirDevice)
    (hd : ¬ d.id = x) : entriesFor x (d :: ds) = entriesFor x ds := by
  simp [entriesFor, List.filter_cons, hd]

lemma entriesFor_upsert (u : DirDevice) (dir : List DirDevice)
    (h : (entriesFor u.id dir).length ≤ 1) :
    entriesFor u.id (upsertList u dir) = [u] := by
  induction dir with
  | nil => simp [upsertList, entriesFor]
  | cons d ds ih =>
    by_cases hd : d.id = u.id
    · rw [entriesFor_cons_self u.id d ds hd] at h
      have h0 : (entriesFor u.id ds).length = 0 := by
        simp only [List.length_cons] at h; omega
      have hnil : entriesFor u.id ds = [] := List.length_eq_zero.mp h0
      have hup : upsertList u (d :: ds) = u :: ds := by
        simp [upsertList, hd]
      rw [hup, entriesFor_cons_self u.id u ds rfl, hnil]
    · rw [entriesFor_cons_other u.id d ds hd] at h
      have hup : upsertList u (d :: ds) = d :: upsertList u ds := by
        simp [upsertList, hd]
      rw [hup, entriesFor_cons_other u.id d _ hd]
      exact ih h

lemma entriesFor_upsert_len (u : DirDevice) (dir : List DirDevice)
    (h : (entriesFor u.id dir).length ≤ 1) :
    (entriesFor u.id (upsertList u dir)).length = 1 := by
  rw [entriesFor_upsert u dir h]
  rfl

lemma entriesFor_runUpserts_le (x : String) (ups : List (DirDevice × Int)) :
    ∀ dir : List DirDevice, (entriesFor x dir).length ≤ 1 →
      (∀ q ∈ ups, (q : DirDevice × Int).1.id = x) →
      (entriesFor x (runUpserts dir ups)).length ≤ 1 := by
  induction ups with
  | nil => intro dir h _; simpa [runUpserts] using h
  | cons p ps ih =>
    intro dir h hall
    have hpid : p.1.id = x := hall p (by simp)
    have hstep : (entriesFor x (handleNetworkAnnouncement p.1 p.2 dir)).length = 1 := by
      have hx : (mkUpdated p.1 p.2).id = x := by simp [mkUpdated_id, hpid]
      have := entriesFor_upsert_len (mkUpdated p.1 p.2) dir (by rw [hx]; exact h)
      rw [hx] at this
      exact this
    have : (entriesFor x (handleNetworkAnnouncement p.1 p.2 dir)).length ≤ 1 := by
      omega
    have := ih (handleNetworkAnnouncement p.1 p.2 dir) this
      (fun q hq => hall q (by simp [hq]))
    simpa [runUpserts] using this

/-- C5: for every sequence of upserts carrying the same peer id, applied to a
directory that holds at most one entry for that id, the directory afterwards
contains exactly one entry for that id, and that entry equals the most
recently applied record with `lastSeen` equal to the timestamp of the most
recent upsert (last write wins). -/
theorem upsert_last_write_wins
    (dir : List DirDevice) (x : String) (ups : List (DirDevice × Int))
    (p : DirDevice × Int)
    (hdir : (entriesFor x dir).length ≤ 1)
    (hall : ∀ q ∈ ups, (q : DirDevice × Int).1.id = x)
    (hp : p.1.id = x) :
    entriesFor x (runUpserts dir (ups ++ [p])) = [mkUpdated p.1 p.2] ∧
    (entriesFor x (runUpserts dir (ups ++ [p]))).length = 1 := by
  have hfold : runUpserts dir (ups ++ [p]) =
      handleNetworkAnnouncement p.1 p.2 (runUpserts dir ups) := by
    simp [runUpserts, List.foldl_append]
  have hle := entriesFor_runUpserts_le x ups dir hdir hall
  have hx : (mkUpdated p.1 p.2).id = x := by simp [mkUpdated_id, hp]
  constructor
  · rw [hfold]
    have := entriesFor_upsert (mkUpdated p.1 p.2) (runUpserts dir ups)
      (by rw [hx]; exact hle)
    rw [hx] at this
    exact this
  · rw [hfold]
    have := entriesFor_upsert_len (mkUpdated p.1 p.2) (runUpserts dir ups)
      (by rw [hx]; exact hle)
    rw [hx] at this
    exact this

/-- Concrete instance of `upsert_last_write_wins`: two announcements for the
same id leave exactly one entry carrying the second announcement's data. -/
theorem upsert_last_write_wins_witness :
    entriesFor "S1" (runUpserts []
      ([(⟨"S1", "Nursery", 10, 10, "network"⟩, 11)] ++
        [(⟨"S1", "Nursery cam", 20, 20, "network"⟩, 21)])) =
      [mkUpdated ⟨"S1", "Nursery cam", 20, 20, "network"⟩ 21] ∧
    (entriesFor "S1" (runUpserts []
      ([(⟨"S1", "Nursery", 10, 10, "network"⟩, 11)] ++
        [(⟨"S1", "Nursery cam", 20, 20, "network"⟩, 21)]))).length = 1 :=
  upsert_last_write_wins [] "S1" [(⟨"S1", "Nursery", 10, 10, "network"⟩, 11)]
    (⟨"S1", "Nursery cam", 20, 20, "network"⟩, 21)
    (by decide) (by decide) (by decide)

/-- A sample stored directory entry used in concrete counterexamples. -/
def sampleDevice : DirDevice :=
  { id := "S1", name := "Nursery", timestamp := 1000, lastSeen := 1000,
    method := "broadcast" }

/-- C6 counterexample: with `now = 16000`, `ttl = 15000` and an entry with
`lastSeen = 1000`, the code removes the entry although
`now - lastSeen > ttl` does not hold (the code removes at `≥ ttl`, the claim
only allows removal at `> ttl`). -/
theorem expire_boundary_counterexample :
    expireDevices 16000 15000 [sampleDevice] = [] ∧
    ¬ ((16000 : Int) - sampleDevice.lastSeen > 15000) := by
  constructor
  · decide
  · decide

lemma filter_idem {α : Type} (p : α → Bool) (l : List α) :
    (l.filter p).filter p = l.filter p := by
  induction l with
  | nil => rfl
  | cons a t ih =>
    by_cases h : p a
    · simp [List.filter_cons, h, ih]
    · simp [List.filter_cons, h, ih]

/-- C6 amended: the expiry pass keeps exactly the entries with a truthy
(non-zero) `lastSeen` and `now - lastSeen < ttl` — so it removes all and only
the entries with `now - lastSeen ≥ ttl` or `lastSeen = 0` — and it is
idempotent. -/
theorem expire_amended :
    (∀ (now ttl : Int) (dir : List DirDevice) (d : DirDevice),
      d ∈ expireDevices now ttl dir ↔
        d ∈ dir ∧ d.lastSeen ≠ 0 ∧ now - d.lastSeen < ttl) ∧
    (∀ (now ttl : Int) (dir : List DirDevice),
      expireDevices now ttl (expireDevices now ttl dir) =
        expireDevices now ttl dir) := by
  constructor
  · intro now ttl dir d
    simp [expireDevices, List.mem_filter, and_assoc]
  · intro now ttl dir
    exact filter_idem _ dir

/-- The observable state of the scan lifecycle in `ParentMonitor.tsx`:
the `isScanning` flag, the `discoveredDevices` directory, whether the
`discoveryInterval` and `cleanupInterval` timers created by `scanForDevices`
are still running, and whether the `zoya-network-discovery` channel created
by `scanForDevices` is still open (subscribed). -/
structure ScanState where
  isScanning : Bool
  devices : List DirDevice
  discoveryIntervalActive : Bool
  cleanupIntervalActive : Bool
  channelOpen : Bool
deriving DecidableEq

/-- The state right after `scanForDevices` has started: scanning flag set,
directory cleared, both intervals running, channel subscribed
(ParentMonitor.tsx lines 63-164). -/
def startScanState : ScanState :=
  { isScanning := true, devices := [], discoveryIntervalActive := true,
    cleanupIntervalActive := true, channelOpen := true }

/-- `stopScanning` of ParentMonitor.tsx (lines 57-61): its body is only
`setIsScanning(false); setDiscoveredDevices([])` — the intervals and the
channel are local to `scanForDevices` and are not touched. -/
def stopScanning (s : ScanState) : ScanState :=
  { s with isScanning := false, devices := [] }

/-- The 10-second scan timeout of `scanForDevices` (ParentMonitor.tsx lines
176-182): clears the scanning flag, both intervals and closes the channel. -/
def scanTimeoutFires (s : ScanState) : ScanState :=
  { s with isScanning := false, discoveryIntervalActive := false, cleanupIntervalActive := false, channelOpen := false }

/-- Delivery of a `baby-monitor-network-announcement` on the discovery
channel: while the channel is open, `handleNetworkAnnouncement` upserts the
device into the directory (it never consults `isScanning`). -/
def deliverAnnouncement (incoming : DirDevice) (now : Int) (s : ScanState) :
    ScanState :=
  if s.channelOpen then
    { s with devices := handleNetworkAnnouncement incoming now s.devices }
  else s

/-- C7 counterexample: `stopScanning` clears the directory but leaves the
discovery timers running and the channel subscribed, so an announcement
delivered after `stopScanning` returns still mutates the Device Directory. -/
theorem stopScan_counterexample :
    (stopScanning startScanState).devices = [] ∧
    (stopScanning startScanState).discoveryIntervalActive = true ∧
    (stopScanning startScanState).cleanupIntervalActive = true ∧
    (stopScanning startScanState).channelOpen = true ∧
    (deliverAnnouncement sampleDevice 5 (stopScanning startScanState)).devices
      = [mkUpdated sampleDevice 5] := by
  refine ⟨rfl, rfl, rfl, rfl, ?_⟩
  decide

/-- C7 amended: `stopScanning` synchronously clears the scanning flag and the
Device Directory before returning, but it stops no timers and does not
unsubscribe — both intervals and the channel subscription are unchanged —
and an announcement delivered afterwards (while the channel is still open)
still mutates the Device Directory. -/
theorem stopScan_amended :
    (∀ s : ScanState,
      (stopScanning s).devices = [] ∧
      (stopScanning s).isScanning = false ∧
      (stopScanning s).discoveryIntervalActive = s.discoveryIntervalActive ∧
      (stopScanning s).cleanupIntervalActive = s.cleanupIntervalActive ∧
      (stopScanning s).channelOpen = s.channelOpen) ∧
    (∀ (s : ScanState) (incoming : DirDevice) (now : Int),
      s.channelOpen = true →
      (deliverAnnouncement incoming now (stopScanning s)).devices =
        [mkUpdated incoming now]) := by
  constructor
  · intro s
    exact ⟨rfl, rfl, rfl, rfl, rfl⟩
  · intro s incoming now h
    simp [deliverAnnouncement, stopScanning, h, handleNetworkAnnouncement,
      upsertList]

/-- Concrete instance of `stopScan_amended` at the scan-start state. -/
theorem stopScan_amended_witness :
    (stopScanning startScanState).devices = [] ∧
    (deliverAnnouncement sampleDevice 5 (stopScanning startScanState)).devices
      = [mkUpdated sampleDevice 5] :=
  ⟨(stopScan_amended.1 startScanState).1,
    stopScan_amended.2 startScanState sampleDevice 5 rfl⟩

/-- The receiver-side connection state of `ParentMonitor.tsx` that the
`connectToDevice` guard reads and writes: `connectedDevice`, `isConnecting`,
the number of `RTCPeerConnection`s created so far and the offers posted on
the discovery channel (by target device id). -/
structure ReceiverUI where
  connectedDevice : Option String
  isConnecting : Bool
  pcsCreated : Nat
  offers : List String
deriving DecidableEq

/-- Receiver state before any connection attempt. -/
def receiverInit : ReceiverUI :=
  { connectedDevice := none, isConnecting := false, pcsCreated := 0,
    offers := [] }

/-- `connectToDevice` of ParentMonitor.tsx (lines 190-253), at the level of
its guard and externally visible effects: if `connectedDevice` is set the
call returns at once; otherwise it sets `isConnecting`, creates a new
`RTCPeerConnection` and posts a `network-connection-request` (offer) for the
chosen device.  There is no check of `isConnecting`. -/
def connectToDevice (d : String) (s : ReceiverUI) : ReceiverUI :=
  if s.connectedDevice.isSome then s
  else
    { s with isConnecting := true, pcsCreated := s.pcsCreated + 1, offers := s.offers ++ [d] }

/-- C3 counterexample: while a negotiation is in progress (a first
`connectToDevice` has set `isConnecting` and no answer has arrived, so the
session is non-terminal), a second `connectToDevice` call is not rejected —
it creates a second peer connection and sends a second offer. -/
theorem connect_guard_counterexample :
    (connectToDevice "S1" receiverInit).isConnecting = true ∧
    (connectToDevice "S1" receiverInit).connectedDevice = none ∧
    (connectToDevice "S1" receiverInit).pcsCreated = 1 ∧
    (connectToDevice "S2" (connectToDevice "S1" receiverInit)).pcsCreated = 2 ∧
    (connectToDevice "S2" (connectToDevice "S1" receiverInit)).offers =
      ["S1", "S2"] := by
  decide

/-- C3 amended: `connectToDevice` rejects a call (returns with no state
change) only while a connection is established (`connectedDevice` set);
whenever `connectedDevice` is unset — even mid-negotiation with
`isConnecting` true — the call proceeds, creating a new peer connection and
posting a new offer. -/
theorem connect_guard_amended :
    (∀ (d : String) (s : ReceiverUI),
      s.connectedDevice.isSome → connectToDevice d s = s) ∧
    (∀ (d : String) (s : ReceiverUI),
      s.connectedDevice = none →
      (connectToDevice d s).pcsCreated = s.pcsCreated + 1 ∧
      (connectToDevice d s).offers = s.offers ++ [d] ∧
      (connectToDevice d s).isConnecting = true) := by
  constructor
  · intro d s h
    simp [connectToDevice, h]
  · intro d s h
    simp [connectToDevice, h]

/-- Concrete instance of `connect_guard_amended`: a call while connected is a
no-op; a call from the idle state creates one peer connection. -/
theorem connect_guard_amended_witness :
    connectToDevice "S2"
      ({ connectedDevice := some "S1", isConnecting := false,
         pcsCreated := 1, offers := ["S1"] } : ReceiverUI) =
      ({ connectedDevice := some "S1", isConnecting := false,
         pcsCreated := 1, offers := ["S1"] } : ReceiverUI) ∧
    (connectToDevice "S1" receiverInit).pcsCreated = receiverInit.pcsCreated + 1 :=
  ⟨connect_guard_amended.1 "S2" _ rfl,
    (connect_guard_amended.2 "S1" receiverInit rfl).1⟩

/-- Transport connection states reported by an `RTCPeerConnection`
(`connectionState` values relevant to the signaling logic). -/
inductive PCConn where
  | fresh
  | connecting
  | connected
  | disconnected
  | failed
deriving DecidableEq

/-- The state of one `connectToDevice` session on the receiver
(ParentMonitor.tsx lines 190-308).  `capturedConnectedDevice` is the value of
the `connectedDevice` React state captured by the closures created inside
`connectToDevice`; the guard at the top of the function means the call only
proceeds when that value is `null`, and a JS closure never sees later
`setConnectedDevice` updates.  `appliedCandidates` records the arguments of
the `peerConnection.addIceCandidate` calls, in order. -/
structure RxSession where
  capturedConnectedDevice : Option String
  connectedDevice : Option String
  isConnecting : Bool
  remoteDescSet : Bool
  appliedCandidates : List Nat
  pcCloseCount : Nat
  channelOpen : Bool
  connState : PCConn
deriving DecidableEq

/-- Session state right after `connectToDevice` passed its guard and sent the
offer: connecting, no remote description, channel open, nothing applied. -/
def rxSessionInit : RxSession :=
  { capturedConnectedDevice := none, connectedDevice := none,
    isConnecting := true, remoteDescSet := false, appliedCandidates := [],
    pcCloseCount := 0, channelOpen := true, connState := PCConn.fresh }

/-- Events driving one receiver session: messages delivered on the
`zoya-network-discovery` channel to `handleNetworkAnswer` (an answer whose
`setRemoteDescription` succeeds or fails, an `ice-candidate-response`, or a
message for another `parentId`), transport state reports, and the 15-second
timeout firing. -/
inductive RxEv where
  | answerMsg (ok : Bool) (deviceId : String)
  | candMsg (c : Nat)
  | foreignMsg
  | transportConnected
  | transportDisconnected
  | timeoutFire
deriving DecidableEq

/-- One step of the receiver session, embedding `handleNetworkAnswer`
(ParentMonitor.tsx lines 256-282), `onconnectionstatechange` with
`handleDisconnect` (lines 294-329), and the `setTimeout` callback (lines
285-292).  Channel messages are only delivered while the channel is open.
Note the timeout callback tests `capturedConnectedDevice` — the stale
closure value — not the live `connectedDevice`, and an
`ice-candidate-response` calls `addIceCandidate` immediately, with no check
that the remote description has been set. -/
def rxStep (s : RxSession) (e : RxEv) : RxSession :=
  match e with
  | RxEv.answerMsg ok d =>
    if s.channelOpen then
      if ok then
        { s with remoteDescSet := true, connectedDevice := some d, isConnecting := false }
      else { s with isConnecting := false }
    else s
  | RxEv.candMsg c =>
    if s.channelOpen then
      { s with appliedCandidates := s.appliedCandidates ++ [c] }
    else s
  | RxEv.foreignMsg => s
  | RxEv.transportConnected => { s with connState := PCConn.connected }
  | RxEv.transportDisconnected =>
    { s with connState := PCConn.disconnected, pcCloseCount := s.pcCloseCount + 1, connectedDevice := none, isConnecting := false }
  | RxEv.timeoutFire =>
    if s.capturedConnectedDevice = none then
      { s with isConnecting := false, pcCloseCount := s.pcCloseCount + 1, channelOpen := false }
    else s

/-- A receiver session run over an event sequence. -/
def runRx (evs : List RxEv) : RxSession := evs.foldl rxStep rxSessionInit

/-- The candidates carried by the `ice-candidate-response` messages of an
event sequence, in arrival order. -/
def candidatesOf (evs : List RxEv) : List Nat :=
  evs.filterMap (fun e => match e with | RxEv.candMsg c => some c | _ => none)

/-- C1 counterexample: a candidate that arrives before any answer is applied
to the peer connection immediately, while the remote description is not yet
set — there is no `pendingCandidates` buffering. -/
theorem candidate_before_remote_desc :
    (runRx [RxEv.candMsg 1]).appliedCandidates = [1] ∧
    (runRx [RxEv.candMsg 1]).remoteDescSet = false := by
  decide

lemma rxStep_channelOpen (s : RxSession) (e : RxEv) (he : e ≠ RxEv.timeoutFire)
    (h : s.channelOpen = true) : (rxStep s e).channelOpen = true := by
  cases e with
  | answerMsg ok d => simp only [rxStep, h, if_true]; split <;> simp [h]
  | candMsg c => simp [rxStep, h]
  | foreignMsg => simpa [rxStep] using h
  | transportConnected => simpa [rxStep] using h
  | transportDisconnected => simpa [rxStep] using h
  | timeoutFire => exact absurd rfl he

lemma runRx_applied_aux (evs : List RxEv) :
    ∀ s : RxSession, s.channelOpen = true → RxEv.timeoutFire ∉ evs →
      (evs.foldl rxStep s).appliedCandidates =
        s.appliedCandidates ++ candidatesOf evs := by
  induction evs with
  | nil => intro s _ _; simp [candidatesOf]
  | cons e es ih =>
    intro s hch hmem
    have he : e ≠ RxEv.timeoutFire := fun h => hmem (by simp [h])
    have hes : RxEv.timeoutFire ∉ es := fun h => hmem (by simp [h])
    have hch' : (rxStep s e).channelOpen = true := rxStep_channelOpen s e he hch
    have := ih (rxStep s e) hch' hes
    cases e with
    | answerMsg ok d =>
      simp only [List.foldl_cons] at *
      rw [this]
      simp [rxStep, hch, candidatesOf]
      split <;> simp
    | candMsg c =>
      simp only [List.foldl_cons] at *
      rw [this]
      simp [rxStep, hch, candidatesOf]
    | foreignMsg =>
      simp only [List.foldl_cons] at *
      rw [this]
      simp [rxStep, candidatesOf]
    | transportConnected =>
      simp only [List.foldl_cons] at *
      rw [this]
      simp [rxStep, candidatesOf]
    | transportDisconnected =>
      simp only [List.foldl_cons] at *
      rw [this]
      simp [rxStep, candidatesOf]
    | timeoutFire => exact absurd rfl he

/-- C1 amended: there is no `pendingCandidates` buffer — every
`ice-candidate-response` delivered while the channel is open (i.e. before the
15-second timeout closes it) is applied to the peer connection immediately on
arrival, in arrival order, exactly once each, regardless of whether the
remote description has been set. -/
theorem candidates_applied_immediately :
    (∀ evs : List RxEv, RxEv.timeoutFire ∉ evs →
      (runRx evs).appliedCandidates = candidatesOf evs) ∧
    (∀ (s : RxSession) (c : Nat), s.channelOpen = true →
      (rxStep s (RxEv.candMsg c)).appliedCandidates =
        s.appliedCandidates ++ [c] ∧
      (rxStep s (RxEv.candMsg c)).remoteDescSet = s.remoteDescSet) := by
  constructor
  · intro evs h
    have := runRx_applied_aux evs rxSessionInit rfl h
    simpa [runRx, rxSessionInit] using this
  · intro s c h
    simp [rxStep, h]

/-- Concrete instance of `candidates_applied_immediately`: candidates
arriving around the answer are applied in arrival order, exactly once each. -/
theorem candidates_applied_immediately_witness :
    (runRx [RxEv.candMsg 1, RxEv.answerMsg true "S1", RxEv.candMsg 2]).appliedCandidates
      = candidatesOf [RxEv.candMsg 1, RxEv.answerMsg true "S1", RxEv.candMsg 2] ∧
    (rxStep rxSessionInit (RxEv.candMsg 7)).appliedCandidates = [7] :=
  ⟨candidates_applied_immediately.1
      [RxEv.candMsg 1, RxEv.answerMsg true "S1", RxEv.candMsg 2] (by decide),
    (candidates_applied_immediately.2 rxSessionInit 7 rfl).1⟩

/-- C2: evaluation at the failing input.  The session's answer arrives and its
transport reaches `connected` well before the 15-second deadline, yet when the
timeout fires it still closes the peer connection (close count goes from 0 to
1): the callback tests the stale `connectedDevice` closure value captured at
call time, which is `null`. -/
theorem timeout_closes_connected_session :
    (runRx [RxEv.answerMsg true "S1", RxEv.transportConnected]).connState
      = PCConn.connected ∧
    (runRx [RxEv.answerMsg true "S1", RxEv.transportConnected]).connectedDevice
      = some "S1" ∧
    (runRx [RxEv.answerMsg true "S1", RxEv.transportConnected]).pcCloseCount = 0 ∧
    (runRx [RxEv.answerMsg true "S1", RxEv.transportConnected, RxEv.timeoutFire]).pcCloseCount = 1 ∧
    (runRx [RxEv.answerMsg true "S1", RxEv.transportConnected, RxEv.timeoutFire]).channelOpen = false := by
  decide

/-- `Map.get` on the insertion-ordered association list modelling the JS
`Map` in `peerConnectionsRef` (BabyMonitor.tsx). -/
def mapGet (k : String) : List (String × PCConn) → Option PCConn
  | [] => none
  | p :: ps => if p.1 = k then some p.2 else mapGet k ps

/-- `Map.set`: replace the value of an existing key in place, otherwise
append the new entry at the end. -/
def mapSet (k : String) (v : PCConn) : List (String × PCConn) → List (String × PCConn)
  | [] => [(k, v)]
  | p :: ps => if p.1 = k then (k, v) :: ps else p :: mapSet k v ps

/-- `Map.delete`: remove the entry with the given key, if present. -/
def mapDelete (k : String) : List (String × PCConn) → List (String × PCConn)
  | [] => []
  | p :: ps => if p.1 = k then ps else p :: mapDelete k ps

/-- A transport state report: the registered peer connection for `k` (if any)
now reports state `v`; entries for other keys are untouched. -/
def mapUpdate (k : String) (v : PCConn) (l : List (String × PCConn)) :
    List (String × PCConn) :=
  l.map (fun p => if p.1 = k then (p.1, v) else p)

/-- The sender-side state of `BabyMonitor.tsx`: the `peerConnectionsRef` map
from parentId to that peer connection's reported transport state, and the
`connectedParents` counter (a JS number, so modelled as `Int`). -/
structure SenderState where
  pcs : List (String × PCConn)
  connectedParents : Int
deriving DecidableEq

/-- Sender state before any parent has connected. -/
def senderInit : SenderState := { pcs := [], connectedParents := 0 }

/-- `handleParentConnection` of BabyMonitor.tsx (lines 305-367), at the level
of its map/counter effects: after the answer is created and sent, the new
peer connection is stored under `parentId` and the counter is incremented —
before the transport has reported anything. -/
def handleParentConnection (pid : String) (s : SenderState) : SenderState :=
  { pcs := mapSet pid PCConn.fresh s.pcs, connectedParents := s.connectedParents + 1 }

/-- `handleParentDisconnection` of BabyMonitor.tsx (lines 369-376): if a peer
connection is registered for `parentId`, close it, remove it from the map and
decrement the counter, floored at zero via `Math.max(0, prev - 1)`;
otherwise do nothing. -/
def handleParentDisconnection (pid : String) (s : SenderState) : SenderState :=
  if (mapGet pid s.pcs).isSome then
    { pcs := mapDelete pid s.pcs, connectedParents := max 0 (s.connectedParents - 1) }
  else s

/-- The `onconnectionstatechange` handler installed by
`handleParentConnection` (BabyMonitor.tsx lines 354-362): record the reported
state, and on `disconnected` or `failed` run `handleParentDisconnection` for
the captured `parentId`. -/
def onConnectionStateChange (pid : String) (st : PCConn) (s : SenderState) :
    SenderState :=
  if st = PCConn.disconnected ∨ st = PCConn.failed then
    handleParentDisconnection pid { s with pcs := mapUpdate pid st s.pcs }
  else { s with pcs := mapUpdate pid st s.pcs }

/-- Events driving the sender: an inbound offer from a parent (handled by
`handleParentConnection`), or a transport state report for a parentId. -/
inductive SenderEv where
  | offer (pid : String)
  | stateChange (pid : String) (st : PCConn)
deriving DecidableEq

/-- One sender step. -/
def senderStep (s : SenderState) (e : SenderEv) : SenderState :=
  match e with
  | SenderEv.offer pid => handleParentConnection pid s
  | SenderEv.stateChange pid st => onConnectionStateChange pid st s

/-- The sender run over an event sequence from the initial state. -/
def runSender (evs : List SenderEv) : SenderState :=
  evs.foldl senderStep senderInit

/-- Number of registered peer connections whose transport is in the
`connected` state. -/
def connectedCount (s : SenderState) : Nat :=
  (s.pcs.filter (fun p => decide (p.2 = PCConn.connected))).length

/-- An offer event is fresh in state `s` when its parentId is not currently
registered in the peer-connection map. -/
def offerFresh (s : SenderState) : SenderEv → Bool
  | SenderEv.offer pid => (mapGet pid s.pcs).isNone
  | SenderEv.stateChange _ _ => true

/-- Offers in the event sequence always arrive with a parentId that is not
currently registered (no parent re-sends an offer under a live parentId). -/
def freshFrom (s : SenderState) : List SenderEv → Bool
  | [] => true
  | e :: es => offerFresh s e && freshFrom (senderStep s e) es

/-- C4 counterexample: after one inbound offer is answered the counter is
already 1 while no transport has reported `connected` — the counter is
incremented speculatively at answer creation, so it does not equal the number
of sessions whose transport is in the Connected state. -/
theorem counter_speculative_counterexample :
    (runSender [SenderEv.offer "p1"]).connectedParents = 1 ∧
    connectedCount (runSender [SenderEv.offer "p1"]) = 0 := by
  decide

lemma mapSet_of_get_none (k : String) (v : PCConn) (l : List (String × PCConn))
    (h : mapGet k l = none) : mapSet k v l = l ++ [(k, v)] := by
  induction l with
  | nil => rfl
  | cons p ps ih =>
    by_cases hp : p.1 = k
    · simp [mapGet, hp] at h
    · simp [mapGet, hp] at h
      simp [mapSet, hp, ih h]

lemma mapUpdate_of_get_none (k : String) (v : PCConn) (l : List (String × PCConn))
    (h : mapGet k l = none) : mapUpdate k v l = l := by
  induction l with
  | nil => rfl
  | cons p ps ih =>
    by_cases hp : p.1 = k
    · simp [mapGet, hp] at h
    · simp [mapGet, hp] at h
      simp [mapUpdate, hp] at ih ⊢
      exact ih h

lemma mapGet_mapUpdate_ne (k q : String) (v : PCConn) (l : List (String × PCConn))
    (h : q ≠ k) : mapGet q (mapUpdate k v l) = mapGet q l := by
  have hk : ¬ k = q := fun hkq => h hkq.symm
  induction l with
  | nil => rfl
  | cons p ps ih =>
    by_cases hp : p.1 = k
    · simp [mapUpdate, mapGet, hp, hk] at ih ⊢
      exact ih
    · by_cases hpq : p.1 = q
      · simp [mapUpdate, mapGet, hp, hpq, h]
      · simp [mapUpdate, mapGet, hp, hpq] at ih ⊢
        exact ih

lemma mapGet_mapDelete_ne (k q : String) (l : List (String × PCConn))
    (h : q ≠ k) : mapGet q (mapDelete k l) = mapGet q l := by
  have hk : ¬ k = q := fun hkq => h hkq.symm
  induction l with
  | nil => rfl
  | cons p ps ih =>
    by_cases hp : p.1 = k
    · simp [mapDelete, mapGet, hp, hk]
    · by_cases hpq : p.1 = q
      · simp [mapDelete, mapGet, hp, hpq, h]
      · simp [mapDelete, mapGet, hp, hpq]
        exact ih

lemma mapGet_mapUpdate_some (k : String) (v w : PCConn) (l : List (String × PCConn))
    (h : mapGet k l = some v) : mapGet k (mapUpdate k w l) = some w := by
  induction l with
  | nil => simp [mapGet] at h
  | cons p ps ih =>
    by_cases hp : p.1 = k
    · simp [mapUpdate, mapGet, hp]
    · simp [mapGet, hp] at h
      simp [mapUpdate, mapGet, hp] at ih ⊢
      exact ih h

lemma mapDelete_length_of_get_some (k : String) (l : List (String × PCConn))
    (h : (mapGet k l).isSome) : l.length = (mapDelete k l).length + 1 := by
  induction l with
  | nil => simp [mapGet] at h
  | cons p ps ih =>
    by_cases hp : p.1 = k
    · simp [mapDelete, hp]
    · simp [mapGet, hp] at h
      simp [mapDelete, hp]
      exact ih h

lemma mapUpdate_length (k : String) (v : PCConn) (l : List (String × PCConn)) :
    (mapUpdate k v l).length = l.length := by
  simp [mapUpdate]

lemma connectedCount_offer_fresh (pid : String) (s : SenderState)
    (h : mapGet pid s.pcs = none) :
    connectedCount (handleParentConnection pid s) = connectedCount s := by
  simp [connectedCount, handleParentConnection, mapSet_of_get_none pid _ _ h,
    List.filter_append]

lemma senderStep_len_offer (pid : String) (s : SenderState)
    (hg : mapGet pid s.pcs = none)
    (h : s.connectedParents = (s.pcs.length : Int)) :
    (handleParentConnection pid s).connectedParents =
      ((handleParentConnection pid s).pcs.length : Int) := by
  simp [handleParentConnection, mapSet_of_get_none pid _ _ hg, h]

lemma senderStep_len_state (pid : String) (st : PCConn) (s : SenderState)
    (h : s.connectedParents = (s.pcs.length : Int)) :
    (onConnectionStateChange pid st s).connectedParents =
      ((onConnectionStateChange pid st s).pcs.length : Int) := by
  unfold onConnectionStateChange
  by_cases hcase : st = PCConn.disconnected ∨ st = PCConn.failed
  · rw [if_pos hcase]
    unfold handleParentDisconnection
    by_cases hget : (mapGet pid (mapUpdate pid st s.pcs)).isSome
    · rw [if_pos hget]
      have hlen := mapDelete_length_of_get_some pid (mapUpdate pid st s.pcs) hget
      rw [mapUpdate_length] at hlen
      show max 0 (s.connectedParents - 1) =
        ((mapDelete pid (mapUpdate pid st s.pcs)).length : Int)
      rw [h, hlen]
      push_cast
      rw [add_sub_cancel_right]
      exact max_eq_right (Nat.cast_nonneg _)
    · rw [if_neg hget]
      show s.connectedParents = ((mapUpdate pid st s.pcs).length : Int)
      rw [mapUpdate_length]
      exact h
  · rw [if_neg hcase]
    show s.connectedParents = ((mapUpdate pid st s.pcs).length : Int)
    rw [mapUpdate_length]
    exact h

lemma counter_len_aux (evs : List SenderEv) :
    ∀ s : SenderState, freshFrom s evs = true →
      s.connectedParents = (s.pcs.length : Int) →
      (evs.foldl senderStep s).connectedParents =
        ((evs.foldl senderStep s).pcs.length : Int) := by
  induction evs with
  | nil => intro s _ h; simpa using h
  | cons e es ih =>
    intro s hf h
    simp only [freshFrom, Bool.and_eq_true] at hf
    obtain ⟨hg, hf'⟩ := hf
    have hstep : (senderStep s e).connectedParents =
        ((senderStep s e).pcs.length : Int) := by
      cases e with
      | offer pid =>
        have hnone : mapGet pid s.pcs = none := by
          simpa [offerFresh, Option.isNone_iff_eq_none] using hg
        exact senderStep_len_offer pid s hnone h
      | stateChange pid st => exact senderStep_len_state pid st s h
    simpa [List.foldl_cons] using ih (senderStep s e) hf' hstep

/-- C4 amended: the sender's counter tracks the registry of answered peer
connections, not the set of transports in the Connected state — it is
incremented when an inbound offer is answered (speculatively, before any
transport report, leaving the connected count unchanged), never changed by a
transport report other than `disconnected`/`failed`, decremented by exactly
one when a registered peer's transport reports `disconnected` (given the
counter is positive), and such a disconnection leaves every other peer's
registered connection unchanged; consequently, over any event sequence whose
offers carry fresh parentIds, the counter equals the number of registered
peer connections. -/
theorem counter_tracks_registry :
    (∀ evs : List SenderEv, freshFrom senderInit evs = true →
      (runSender evs).connectedParents = ((runSender evs).pcs.length : Int)) ∧
    (∀ (pid : String) (s : SenderState), mapGet pid s.pcs = none →
      (senderStep s (SenderEv.offer pid)).connectedParents =
        s.connectedParents + 1 ∧
      connectedCount (senderStep s (SenderEv.offer pid)) = connectedCount s) ∧
    (∀ (pid : String) (st : PCConn) (s : SenderState),
      st ≠ PCConn.disconnected → st ≠ PCConn.failed →
      (senderStep s (SenderEv.stateChange pid st)).connectedParents =
        s.connectedParents) ∧
    (∀ (pid : String) (s : SenderState),
      (mapGet pid s.pcs).isSome = true → 1 ≤ s.connectedParents →
      (senderStep s (SenderEv.stateChange pid PCConn.disconnected)).connectedParents
        = s.connectedParents - 1) ∧
    (∀ (pid q : String) (s : SenderState), q ≠ pid →
      mapGet q (senderStep s (SenderEv.stateChange pid PCConn.disconnected)).pcs
        = mapGet q s.pcs) := by
  refine ⟨?_, ?_, ?_, ?_, ?_⟩
  · intro evs hf
    exact counter_len_aux evs senderInit hf rfl
  · intro pid s hg
    exact ⟨rfl, connectedCount_offer_fresh pid s hg⟩
  · intro pid st s h1 h2
    simp [senderStep, onConnectionStateChange, h1, h2]
  · intro pid s hsome hone
    obtain ⟨v, hv⟩ := Option.isSome_iff_exists.mp hsome
    have h2 : mapGet pid (mapUpdate pid PCConn.disconnected s.pcs) =
        some PCConn.disconnected :=
      mapGet_mapUpdate_some pid v PCConn.disconnected s.pcs hv
    simp [senderStep, onConnectionStateChange, handleParentDisconnection, h2]
    omega
  · intro pid q s hne
    show mapGet q (onConnectionStateChange pid PCConn.disconnected s).pcs =
      mapGet q s.pcs
    unfold onConnectionStateChange
    rw [if_pos (Or.inl rfl)]
    unfold handleParentDisconnection
    by_cases hget : (mapGet pid (mapUpdate pid PCConn.disconnected s.pcs)).isSome
    · rw [if_pos hget]
      show mapGet q (mapDelete pid (mapUpdate pid PCConn.disconnected s.pcs)) =
        mapGet q s.pcs
      rw [mapGet_mapDelete_ne pid q _ hne, mapGet_mapUpdate_ne pid q _ _ hne]
    · rw [if_neg hget]
      show mapGet q (mapUpdate pid PCConn.disconnected s.pcs) = mapGet q s.pcs
      exact mapGet_mapUpdate_ne pid q _ _ hne

/-- A demonstration event sequence: two parents connect, the first one's
transport connects and then disconnects. -/
def demoTrace : List SenderEv :=
  [SenderEv.offer "p1", SenderEv.offer "p2",
   SenderEv.stateChange "p1" PCConn.connected,
   SenderEv.stateChange "p1" PCConn.disconnected]

/-- Concrete instance of `counter_tracks_registry` on `demoTrace`. -/
theorem counter_tracks_registry_witness :
    (runSender demoTrace).connectedParents =
      ((runSender demoTrace).pcs.length : Int) ∧
    (senderStep senderInit (SenderEv.offer "p1")).connectedParents =
      senderInit.connectedParents + 1 :=
  ⟨counter_tracks_registry.1 demoTrace (by decide),
    (counter_tracks_registry.2.1 "p1" senderInit rfl).1⟩

lemma senderStep_nonneg (s : SenderState) (e : SenderEv)
    (h : 0 ≤ s.connectedParents) : 0 ≤ (senderStep s e).connectedParents := by
  cases e with
  | offer pid =>
    have : (senderStep s (SenderEv.offer pid)).connectedParents =
        s.connectedParents + 1 := rfl
    omega
  | stateChange pid st =>
    simp only [senderStep, onConnectionStateChange]
    split
    · unfold handleParentDisconnection
      split
      · exact le_max_left 0 _
      · exact h
    · exact h

lemma runSender_nonneg_aux (evs : List SenderEv) :
    ∀ s : SenderState, 0 ≤ s.connectedParents →
      0 ≤ (evs.foldl senderStep s).connectedParents := by
  induction evs with
  | nil => intro s h; simpa using h
  | cons e es ih =>
    intro s h
    simpa [List.foldl_cons] using ih (senderStep s e) (senderStep_nonneg s e h)

/-- C9: the sender's connected-parents counter never becomes negative on any
event sequence, and a disconnection (or failure) report for a parentId with
no registered peer connection is a complete no-op: the peer-connection map
and the counter are unchanged. -/
theorem counter_nonneg_unknown_noop :
    (∀ evs : List SenderEv, 0 ≤ (runSender evs).connectedParents) ∧
    (∀ (pid : String) (s : SenderState), mapGet pid s.pcs = none →
      senderStep s (SenderEv.stateChange pid PCConn.disconnected) = s ∧
      senderStep s (SenderEv.stateChange pid PCConn.failed) = s) := by
  constructor
  · intro evs
    exact runSender_nonneg_aux evs senderInit (by simp [senderInit])
  · intro pid s hg
    have hu : ∀ st : PCConn, mapUpdate pid st s.pcs = s.pcs :=
      fun st => mapUpdate_of_get_none pid st s.pcs hg
    constructor
    · simp [senderStep, onConnectionStateChange, hu, handleParentDisconnection, hg]
    · simp [senderStep, onConnectionStateChange, hu, handleParentDisconnection, hg]

/-- Concrete instance of `counter_nonneg_unknown_noop`: the counter after
`demoTrace` is non-negative, and a disconnection for an unknown parentId
leaves the initial state untouched. -/
theorem counter_nonneg_unknown_noop_witness :
    0 ≤ (runSender demoTrace).connectedParents ∧
    senderStep senderInit (SenderEv.stateChange "p9" PCConn.disconnected) =
      senderInit :=
  ⟨counter_nonneg_unknown_noop.1 demoTrace,
    (counter_nonneg_unknown_noop.2 "p9" senderInit rfl).1⟩

/-- The observable state of the sender's announce loop (BabyMonitor.tsx
`setupNetworkBroadcasting`, lines 192-302): the durable localStorage record
under the `zoya-baby-monitor-` key (`none` when absent, otherwise its
`lastSeen` timestamp), and the `baby-monitor-network-announcement` messages
posted on the discovery channel, by timestamp. -/
structure AnnounceState where
  storedLastSeen : Option Int
  broadcasts : List Int
deriving DecidableEq

/-- `announceOnNetwork` (BabyMonitor.tsx lines 257-275).  The function is a
closure created inside `setupNetworkBroadcasting`, which is called from the
`startMonitoring` closure; `capturedIsStreaming` is the value of the
`isStreaming` React state captured by that render.  The body begins with
`if (!isStreaming) return;`; otherwise it refreshes the localStorage record
and posts an announcement with the current timestamp. -/
def announceOnNetwork (capturedIsStreaming : Bool) (now : Int)
    (s : AnnounceState) : AnnounceState :=
  if capturedIsStreaming then
    { storedLastSeen := some now, broadcasts := s.broadcasts ++ [now] }
  else s

/-- `setupNetworkBroadcasting` at time `t0`: it unconditionally writes the
localStorage record (line 226), then calls `announceOnNetwork()` once
immediately (line 278). -/
def setupNetworkBroadcasting (capturedIsStreaming : Bool) (t0 : Int) :
    AnnounceState :=
  announceOnNetwork capturedIsStreaming t0
    { storedLastSeen := some t0, broadcasts := [] }

/-- The 2-second `setInterval` ticks (line 281), each invoking the same
`announceOnNetwork` closure at its tick time. -/
def runAnnounceTicks (capturedIsStreaming : Bool) (ticks : List Int)
    (s : AnnounceState) : AnnounceState :=
  ticks.foldl (fun acc t => announceOnNetwork capturedIsStreaming t acc) s

/-- C8: evaluation at the failing input.  `startMonitoring` is only reachable
from a render in which `isStreaming` is `false` (the Start button renders
only then), so the closures capture `isStreaming = false` and
`setIsStreaming(true)` never updates that binding.  Hence the guard
`if (!isStreaming) return` makes the immediate announcement and every 2-second
tick a no-op: no announcement is ever broadcast by the announce loop, for any
start time and any number of ticks; only the one durable localStorage record
written during setup exists, and it is never refreshed. -/
theorem announce_loop_never_broadcasts :
    ∀ (t0 : Int) (ticks : List Int),
      (runAnnounceTicks false ticks (setupNetworkBroadcasting false t0)).broadcasts
        = [] ∧
      (runAnnounceTicks false ticks (setupNetworkBroadcasting false t0)).storedLastSeen
        = some t0 := by
  intro t0 ticks
  have hnoop : ∀ s : AnnounceState, runAnnounceTicks false ticks s = s := by
    intro s
    induction ticks generalizing s with
    | nil => rfl
    | cons t ts ih =>
      have : announceOnNetwork false t s = s := rfl
      simp [runAnnounceTicks, List.foldl_cons, this] at ih ⊢
      exact ih s
  rw [hnoop]
  exact ⟨rfl, rfl⟩

/-- The environment probed by `ensureWebRTCGlobals` (src/lib/webrtc.ts):
`Capacitor.getPlatform()`, whether `window.cordova` is defined, whether
`cordova.plugins.iosrtc` with a `registerGlobals` function is available, and
whether `iosrtc.debug.enable` exists. -/
structure WebRTCEnv where
  platform : String
  cordovaPresent : Bool
  iosrtcAvailable : Bool
  iosrtcDebugEnable : Bool
deriving DecidableEq

/-- The observable state touched by `ensureWebRTCGlobals`: the module-level
`initialized` flag, how many times `iosrtc.registerGlobals()` has run, how
many times `iosrtc.debug.enable` has run, and how many `deviceready`
listeners have been added. -/
structure WebRTCState where
  initFlag : Bool
  registerGlobalsCalls : Nat
  debugEnableCalls : Nat
  devicereadyListeners : Nat
deriving DecidableEq

/-- The `register` closure in `ensureWebRTCGlobals` (webrtc.ts lines 29-37):
if `iosrtc` with a `registerGlobals` function is available, call it and
enable debug output when possible. -/
def registerIosrtc (env : WebRTCEnv) (s : WebRTCState) : WebRTCState :=
  if env.iosrtcAvailable then
    { s with registerGlobalsCalls := s.registerGlobalsCalls + 1, debugEnableCalls := s.debugEnableCalls + (if env.iosrtcDebugEnable then 1 else 0) }
  else s

/-- `ensureWebRTCGlobals` (webrtc.ts lines 24-45): return immediately if the
module-level `initialized` flag is set, otherwise set it; on iOS either add a
one-shot `deviceready` listener (when `window.cordova` exists) or run
`register` directly. -/
def ensureWebRTCGlobals (env : WebRTCEnv) (s : WebRTCState) : WebRTCState :=
  if s.initFlag then s
  else
    let s1 : WebRTCState := { s with initFlag := true }
    if env.platform = "ios" then
      if env.cordovaPresent then
        { s1 with devicereadyListeners := s1.devicereadyListeners + 1 }
      else registerIosrtc env s1
    else s1

/-- `n` successive calls of `ensureWebRTCGlobals` in the same environment. -/
def ensureIterN (env : WebRTCEnv) : Nat → WebRTCState → WebRTCState
  | 0, s => s
  | n + 1, s => ensureIterN env n (ensureWebRTCGlobals env s)

lemma ensure_sets_flag (env : WebRTCEnv) (s : WebRTCState) :
    (ensureWebRTCGlobals env s).initFlag = true := by
  unfold ensureWebRTCGlobals
  by_cases h : s.initFlag
  · simp [h]
  · simp only [h, if_neg, Bool.false_eq_true, not_false_eq_true, if_false]
    unfold registerIosrtc
    split
    · split
      · rfl
      · split
        · rfl
        · rfl
    · rfl

lemma ensure_noop_of_flag (env : WebRTCEnv) (s : WebRTCState)
    (h : s.initFlag = true) : ensureWebRTCGlobals env s = s := by
  simp [ensureWebRTCGlobals, h]

/-- C10: `ensureWebRTCGlobals` is idempotent — the first call sets the
`initialized` flag and every subsequent call returns immediately, so `n + 1`
successive calls (in any fixed environment, from any starting state) have
exactly the same effect as one call: no further `registerGlobals` run, no
further `deviceready` listener. -/
theorem ensure_webrtc_idempotent :
    ∀ (env : WebRTCEnv) (n : Nat) (s : WebRTCState),
      ensureIterN env (n + 1) s = ensureWebRTCGlobals env s := by
  intro env n
  induction n with
  | zero => intro s; rfl
  | succ m ih =>
    intro s
    have h1 : ensureIterN env (m + 2) s =
        ensureIterN env (m + 1) (ensureWebRTCGlobals env s) := rfl
    rw [h1, ih (ensureWebRTCGlobals env s),
      ensure_noop_of_flag env _ (ensure_sets_flag env s)]

end Zoya
